import Mathlib

/-!
Verification of the authentication and RBAC core of the enerkomp backend.

The TypeScript services are shallowly embedded as pure Lean functions:
  * the Prisma store becomes an explicit `Db` value (lists of user rows and
    token rows) threaded through each operation;
  * `async` service methods that can `throw` become `Except String`-valued
    functions whose error strings are the exact `Error` messages of the source;
  * JWT signing is modelled symbolically: a signed token is a constructor
    carrying its class (access/refresh), its claims and its expiry, and
    verification succeeds exactly on tokens of the expected class that are not
    yet expired — the standard unforgeability abstraction of a MAC;
  * bcrypt is modelled as an injective tagging function, which preserves
    everything the claims depend on (hash determinism and compare = equality
    with the stored hash);
  * timestamps are `Nat` milliseconds; `new Date()` becomes an explicit `now`
    parameter; `uuidv4()` becomes an explicit fresh-value parameter.
-/

/-- One row of the `Permission` table: grants `action` on `resource` to
`roleId`. -/
structure Permission where
  roleId : String
  resource : String
  action : String
deriving DecidableEq, Repr

/-- `RoleService.hasPermission` (role.service.ts:78-91): a single
`permission.findFirst` on the exact triple; returns whether a row was found.
Note that no "manage" wildcard is applied here. -/
def RoleService.hasPermission (perms : List Permission)
    (roleId resource action : String) : Bool :=
  (perms.find? fun p =>
    decide (p.roleId = roleId ∧ p.resource = resource ∧ p.action = action)).isSome

/-- The identity attached to a request by the authentication middleware
(`req.user`): the projection {id, email, roleId, roleName} built by
`AuthService.validateAccessToken`. -/
structure AuthenticatedUser where
  id : String
  email : String
  roleId : String
  roleName : String
deriving DecidableEq, Repr

/-- Outcome of a guard middleware: pass control on, or answer with an HTTP
status. -/
inductive PermDecision
  | next
  | forbidden403
  | unauthenticated401
deriving DecidableEq, Repr

/-- Result of one run of the permission middleware: the decision, the
request-scoped cache afterwards, and how many `RoleService.hasPermission`
calls (Resolver queries) were made. -/
structure PermRequireResult where
  decision : PermDecision
  cache : List (String × Bool)
  resolverCalls : Nat
deriving DecidableEq, Repr

/-- The cache key `` `${resource}:${action}:${req.user.roleId}` `` of
require-permission.middleware.ts:55. -/
def permCacheKey (resource action roleId : String) : String :=
  resource ++ ":" ++ action ++ ":" ++ roleId

/-- Lookup in the request-scoped permission cache (`req._permissionCache`,
a string-keyed map). -/
def permCacheGet (cache : List (String × Bool)) (key : String) : Option Bool :=
  match cache.find? fun e => decide (e.1 = key) with
  | some e => some e.2
  | none => none

/-- `RequirePermissionMiddleware.require` (require-permission.middleware.ts:
38-101) for one request: check `req.user`, consult the request cache, else ask
the Resolver for "manage" first and the explicit action second, caching the
combined boolean under the key. -/
def RequirePermissionMiddleware.require (perms : List Permission)
    (user? : Option AuthenticatedUser) (cache : List (String × Bool))
    (resource action : String) : PermRequireResult :=
  match user? with
  | none => ⟨.unauthenticated401, cache, 0⟩
  | some u =>
    let key := permCacheKey resource action u.roleId
    match permCacheGet cache key with
    | some b => if b then ⟨.next, cache, 0⟩ else ⟨.forbidden403, cache, 0⟩
    | none =>
      if RoleService.hasPermission perms u.roleId resource "manage" then
        ⟨.next, (key, true) :: cache, 1⟩
      else if RoleService.hasPermission perms u.roleId resource action then
        ⟨.next, (key, true) :: cache, 2⟩
      else
        ⟨.forbidden403, (key, false) :: cache, 2⟩

/-! ## Token codec (TokenService, jsonwebtoken) -/

/-- The two signing classes of the codec: each uses an independent secret. -/
inductive JwtKind
  | access
  | refresh
deriving DecidableEq, Repr

/-- JWT claims minted by the orchestrator: always `{id, email, roleId}`
(auth service `payload`). -/
structure Claims where
  id : String
  email : String
  roleId : String
deriving DecidableEq, Repr

/-- A token string, modelled symbolically.  `signed` is a JWT produced by
`jwt.sign` with one of the two secrets (it records its class, claims, expiry
instant and issue instant); `uuid` is a `uuidv4()` reset token; `raw` is any
other string presented by a client.  Unforgeability of the MAC is modelled by
verification succeeding only on `signed` values of the matching class. -/
inductive Tok
  | signed (kind : JwtKind) (claims : Claims) (expiresAt : Nat) (issuedAt : Nat)
  | uuid (n : Nat)
  | raw (s : String)
deriving DecidableEq, Repr

/-- `TokenService.generateAccessToken` (token.service.ts:137-142). -/
def TokenService.generateAccessToken (accessTokenExpiresIn : Nat) (now : Nat)
    (payload : Claims) : Tok :=
  .signed .access payload (now + accessTokenExpiresIn) now

/-- `TokenService.generateRefreshToken` (token.service.ts:150-155). -/
def TokenService.generateRefreshToken (refreshTokenExpiresIn : Nat) (now : Nat)
    (payload : Claims) : Tok :=
  .signed .refresh payload (now + refreshTokenExpiresIn) now

/-- `TokenService.verifyToken` (token.service.ts:164-173): `jwt.verify` with
the access secret when `isRefresh = false`, the refresh secret otherwise.
Returns the claims on a valid, unexpired token of the expected class and
`none` (the thrown `JsonWebTokenError`/`TokenExpiredError`) otherwise. -/
def TokenService.verifyToken (now : Nat) (tok : Tok) (isRefresh : Bool) :
    Option Claims :=
  match tok with
  | .signed kind claims exp _ =>
    if kind = (if isRefresh then JwtKind.refresh else JwtKind.access) ∧ now < exp
    then some claims else none
  | .uuid _ => none
  | .raw _ => none

/-! ## Password hasher (PasswordService, bcrypt) -/

/-- bcrypt hashing, modelled as an injective tag.  The claims only depend on
the hash being deterministic and on `bcrypt.compare` agreeing with it. -/
def bcryptHash (plain : String) : String :=
  "$2b$12$" ++ plain

/-- `bcrypt.compare`, under the same model. -/
def bcryptCompare (plain hashed : String) : Bool :=
  decide (hashed = bcryptHash plain)

/-- `PasswordService.hash` (password.service.ts): rejects empty and short
passwords, then hashes. -/
def PasswordService.hash (password : String) : Except String String :=
  if password = "" then
    .error "Password must be a non-empty string"
  else if password.length < 6 then
    .error "Password too weak: minimum 6 characters required"
  else
    .ok (bcryptHash password)

/-- `PasswordService.verify` (password.service.ts): never throws; empty
arguments and compare failures yield `false`. -/
def PasswordService.verify (plain hashed : String) : Bool :=
  if plain = "" || hashed = "" then false else bcryptCompare plain hashed

/-! ## The relational store -/

/-- The `Token.type` enum of the Prisma schema. -/
inductive TokenType
  | access_token
  | refresh_token
  | reset_password
deriving DecidableEq, Repr

/-- One row of the `Token` table (the token ledger).  `rowId` models the
primary key `id` (`resetPassword` updates the consumed row by that key). -/
structure TokenRow where
  rowId : Nat
  token : Tok
  type : TokenType
  userId : String
  expiresAt : Nat
  isRevoked : Bool
  usedAt : Option Nat
deriving DecidableEq, Repr

/-- One row of the `User` table, restricted to the fields the auth core reads
or writes.  `roleName` inlines the required `role` relation that the queries
`include`. -/
structure UserRow where
  id : String
  name : String
  email : String
  password : String
  avatar : Option String
  status : String
  roleId : String
  roleName : String
  deletedAt : Option Nat
  lastLoginAt : Option Nat
  lastForgotAt : Option Nat
deriving DecidableEq, Repr

/-- The store: the two tables the auth core touches, plus the next fresh
primary key for token rows. -/
structure Db where
  users : List UserRow
  tokens : List TokenRow
  nextRowId : Nat
deriving DecidableEq, Repr

/-- `prisma.user.findUnique({where: {email, status: "ACTIVE", deletedAt:
null}})` — the lookup used by `login` and `forgotPassword`. -/
def findActiveUserByEmail (db : Db) (email : String) : Option UserRow :=
  db.users.find? fun u =>
    decide (u.email = email ∧ u.status = "ACTIVE" ∧ u.deletedAt = none)

/-- `prisma.user.findUnique({where: {id, status: "ACTIVE", deletedAt:
null}})` — the lookup used by `validateAccessToken`. -/
def findActiveUserById (db : Db) (id : String) : Option UserRow :=
  db.users.find? fun u =>
    decide (u.id = id ∧ u.status = "ACTIVE" ∧ u.deletedAt = none)

/-- `prisma.token.create`: append a fresh row with the next primary key. -/
def Db.createToken (db : Db) (tok : Tok) (ty : TokenType) (userId : String)
    (expiresAt : Nat) (usedAt : Option Nat) : Db :=
  { db with
    tokens := db.tokens ++ [⟨db.nextRowId, tok, ty, userId, expiresAt, false, usedAt⟩]
    nextRowId := db.nextRowId + 1 }

/-- `prisma.user.update({where: {id}, data})`: apply `f` to the rows with the
given id. -/
def Db.updateUser (db : Db) (id : String) (f : UserRow → UserRow) : Db :=
  { db with users := db.users.map fun u => if u.id = id then f u else u }

/-! ## Session/Auth orchestrator (AuthService) -/

/-- The `where` clause of the ledger lookup in `validateAccessToken`:
a matching unrevoked, unexpired `access_token` row. -/
def isActiveAccessRow (now : Nat) (tok : Tok) (r : TokenRow) : Bool :=
  decide (r.token = tok ∧ r.type = TokenType.access_token ∧
          r.isRevoked = false ∧ now < r.expiresAt)

/-- The `where` clause of the ledger lookup in `refreshAccessToken`:
a matching unrevoked, unexpired `refresh_token` row of the payload's user. -/
def isActiveRefreshRowFor (now : Nat) (tok : Tok) (userId : String)
    (r : TokenRow) : Bool :=
  decide (r.token = tok ∧ r.userId = userId ∧
          r.type = TokenType.refresh_token ∧ r.isRevoked = false ∧
          now < r.expiresAt)

/-- The `where` clause of the ledger lookup in `logout`: a matching unrevoked
`refresh_token` row — note: no expiry and no `usedAt` condition. -/
def isUnrevokedRefreshRow (tok : Tok) (r : TokenRow) : Bool :=
  decide (r.token = tok ∧ r.type = TokenType.refresh_token ∧
          r.isRevoked = false)

/-- The `where` clause of the ledger lookup in `resetPassword`: a matching
unrevoked, unused, unexpired `reset_password` row. -/
def isActiveResetRow (now : Nat) (tok : Tok) (r : TokenRow) : Bool :=
  decide (r.token = tok ∧ r.type = TokenType.reset_password ∧
          r.isRevoked = false ∧ r.usedAt = none ∧ now < r.expiresAt)

/-- The configuration block of `AuthService` (all durations in ms, taken from
`jwtConfig`). -/
structure AuthServiceConfig where
  accessTokenExpiresIn : Nat
  refreshTokenExpiresIn : Nat
  forgotPasswordCooldown : Nat
  resetTokenExpiresIn : Nat
deriving DecidableEq, Repr

/-- The `user` part of a `LoginResult`. -/
structure LoginUser where
  id : String
  name : String
  email : String
  avatar : String
  roleId : String
  roleName : String
deriving DecidableEq, Repr

/-- `LoginResult` of auth service `login`. -/
structure LoginResult where
  accessToken : Tok
  refreshToken : Tok
  user : LoginUser
deriving DecidableEq, Repr

/-- `AuthService.login` (part_008:101-184): active-user lookup by email,
password check (both failures share one generic message), `lastLoginAt`
update, token pair minting and ledger insertion. -/
def AuthService.login (cfg : AuthServiceConfig) (db : Db) (now : Nat)
    (email password : String) : Except String (LoginResult × Db) :=
  match findActiveUserByEmail db email with
  | none => .error "Invalid email or password"
  | some u =>
    if PasswordService.verify password u.password then
      let db1 := db.updateUser u.id fun x => { x with lastLoginAt := some now }
      let avatarUrl := u.avatar.getD "/uploads/avatars/default-avatar.png"
      let payload : Claims := ⟨u.id, u.email, u.roleId⟩
      let accessToken := TokenService.generateAccessToken cfg.accessTokenExpiresIn now payload
      let refreshToken := TokenService.generateRefreshToken cfg.refreshTokenExpiresIn now payload
      let db2 := db1.createToken accessToken .access_token u.id
        (now + cfg.accessTokenExpiresIn) none
      let db3 := db2.createToken refreshToken .refresh_token u.id
        (now + cfg.refreshTokenExpiresIn) none
      .ok (⟨accessToken, refreshToken,
            ⟨u.id, u.name, u.email, avatarUrl, u.roleId, u.roleName⟩⟩, db3)
    else
      .error "Invalid email or password"

/-- `AuthService.validateAccessToken` (part_008:192-240): JWT verification
(access class), ledger check (unrevoked, unexpired `access_token` row), then
active-user re-fetch; returns the identity projection.  The defensive
`typeof payload.id !== "string"` check of the source is vacuous here because
every codec-verifiable token carries well-typed claims. -/
def AuthService.validateAccessToken (db : Db) (now : Nat) (tok : Tok) :
    Except String AuthenticatedUser :=
  match TokenService.verifyToken now tok false with
  | none => .error "Invalid or expired access token"
  | some payload =>
    match db.tokens.find? (isActiveAccessRow now tok) with
    | none => .error "Invalid or revoked access token"
    | some _ =>
      match findActiveUserById db payload.id with
      | none => .error "User not found or inactive"
      | some u => .ok ⟨u.id, u.email, u.roleId, u.roleName⟩

/-- `AuthService.refreshAccessToken` (part_008:249-305): JWT verification
(refresh class), active refresh-row check, bulk revocation of the user's
unrevoked access-token rows, then minting and recording of a new access
token.  The refresh row itself is not touched. -/
def AuthService.refreshAccessToken (cfg : AuthServiceConfig) (db : Db)
    (now : Nat) (tok : Tok) : Except String (Tok × Db) :=
  match TokenService.verifyToken now tok true with
  | none => .error "Invalid or expired refresh token"
  | some payload =>
    match db.tokens.find? (isActiveRefreshRowFor now tok payload.id) with
    | none => .error "Refresh token not found or already revoked"
    | some _ =>
      let db1 : Db := { db with
        tokens := db.tokens.map fun r =>
          if r.userId = payload.id ∧ r.type = TokenType.access_token ∧
             r.isRevoked = false
          then { r with isRevoked := true } else r }
      let newAccessToken :=
        TokenService.generateAccessToken cfg.accessTokenExpiresIn now payload
      let db2 := db1.createToken newAccessToken .access_token payload.id
        (now + cfg.accessTokenExpiresIn) none
      .ok (newAccessToken, db2)

/-- `AuthService.logout` (part_008:313-344): requires an unrevoked
`refresh_token` ledger row for the presented token (no expiry or `usedAt`
condition in the query), then revokes every unrevoked token of that row's
user, of every type. -/
def AuthService.logout (db : Db) (tok : Tok) : Except String Db :=
  match db.tokens.find? (isUnrevokedRefreshRow tok) with
  | none => .error "Invalid refresh token"
  | some tokenRecord =>
    .ok { db with
      tokens := db.tokens.map fun r =>
        if r.userId = tokenRecord.userId ∧ r.isRevoked = false
        then { r with isRevoked := true } else r }

/-- Result shape of `forgotPassword`: the cooldown status.  `activeDate`
models the localized rendering of the cooldown-end instant. -/
structure ForgotStatus where
  active : Bool
  activeDate : Option Nat
deriving DecidableEq, Repr

/-- The token-issuing tail of `forgotPassword` (part_008:392-445): one
transaction creating the `reset_password` row (expiry
`now + resetTokenExpiresIn`) and stamping `lastForgotAt = now`; the reset
e-mail is a best-effort side effect outside the store. -/
def AuthService.forgotIssue (cfg : AuthServiceConfig) (db : Db) (now : Nat)
    (u : UserRow) (freshUuid : Nat) : ForgotStatus × Db :=
  let db1 := db.createToken (.uuid freshUuid) .reset_password u.id
    (now + cfg.resetTokenExpiresIn) none
  let db2 := db1.updateUser u.id fun x => { x with lastForgotAt := some now }
  (⟨false, none⟩, db2)

/-- `AuthService.forgotPassword` (part_008:353-446): unknown or inactive
e-mail answers `{active: false}` with no store change; a user still inside
`lastForgotAt + forgotPasswordCooldown` answers `{active: true, activeDate:
cooldown end}` with no store change; otherwise a reset token is issued. -/
def AuthService.forgotPassword (cfg : AuthServiceConfig) (db : Db) (now : Nat)
    (email : String) (freshUuid : Nat) : ForgotStatus × Db :=
  match findActiveUserByEmail db email with
  | none => (⟨false, none⟩, db)
  | some u =>
    match u.lastForgotAt with
    | some t =>
      if now < t + cfg.forgotPasswordCooldown then
        (⟨true, some (t + cfg.forgotPasswordCooldown)⟩, db)
      else
        AuthService.forgotIssue cfg db now u freshUuid
    | none => AuthService.forgotIssue cfg db now u freshUuid

/-- `AuthService.resetPassword` (part_008:455-505): requires an unrevoked,
unused, unexpired `reset_password` row for the token; then hashes the new
password (which can itself fail on weak input), replaces the user's password,
marks the consumed row used and revoked (update by primary key), and revokes
every `access_token`/`refresh_token` row of that user. -/
def AuthService.resetPassword (db : Db) (now : Nat) (tok : Tok)
    (newPassword : String) : Except String Db :=
  match db.tokens.find? (isActiveResetRow now tok) with
  | none => .error "Invalid or expired reset token"
  | some tokenRecord =>
    match PasswordService.hash newPassword with
    | .error e => .error e
    | .ok hashedPassword =>
      let db1 := db.updateUser tokenRecord.userId fun x =>
        { x with password := hashedPassword }
      let db2 : Db := { db1 with
        tokens := db1.tokens.map fun r =>
          if r.rowId = tokenRecord.rowId
          then { r with usedAt := some now, isRevoked := true } else r }
      let db3 : Db := { db2 with
        tokens := db2.tokens.map fun r =>
          if r.userId = tokenRecord.userId ∧
             (r.type = TokenType.refresh_token ∨ r.type = TokenType.access_token)
          then { r with isRevoked := true } else r }
      .ok db3

/-! ## HTTP boundary (AuthMiddleware, AuthController) -/

/-- The JSON bodies the modelled endpoints produce. -/
inductive HttpBody
  | jsonError (msg : String)
  | jsonLogin (accessToken refreshToken : Tok) (user : LoginUser) (message : String)
  | jsonForgot (active : Bool) (activeDate : Option Nat) (message : String)
  | jsonMessage (msg : String)
deriving DecidableEq, Repr

/-- An HTTP response: status code and body. -/
structure HttpResponse where
  status : Nat
  body : HttpBody
deriving DecidableEq, Repr

/-- Outcome of the authentication gate: attach `req.user` and pass control
on, or answer directly. -/
inductive AuthOutcome
  | success (user : AuthenticatedUser)
  | failure (response : HttpResponse)
deriving DecidableEq, Repr

/-- `AuthMiddleware.authenticate` (auth.middleware.ts:35-63): missing
credential answers 401, and any `validateAccessToken` error is caught and
answered as 401 whose body carries that error's message. -/
def AuthMiddleware.authenticate (db : Db) (now : Nat) (tok? : Option Tok) :
    AuthOutcome :=
  match tok? with
  | none => .failure ⟨401, .jsonError "Access token required"⟩
  | some t =>
    match AuthService.validateAccessToken db now t with
    | .ok u => .success u
    | .error msg => .failure ⟨401, .jsonError msg⟩

/-- `AuthController.login` (auth.controller.ts:36-68): 400 on missing
credentials, 200 with the login payload on success, and
`handleError(..., 401)` — a 401 carrying the thrown message — on failure. -/
def AuthController.login (cfg : AuthServiceConfig) (db : Db) (now : Nat)
    (email password : String) : HttpResponse :=
  if email = "" ∨ password = "" then
    ⟨400, .jsonError "Email and password are required"⟩
  else
    match AuthService.login cfg db now email password with
    | .ok (result, _) =>
      ⟨200, .jsonLogin result.accessToken result.refreshToken result.user
              "Login successful"⟩
    | .error msg => ⟨401, .jsonError msg⟩

/-- The uniform message of the forgot-password endpoint. -/
def forgotPasswordMessage : String :=
  "If your email is registered, you will receive a password reset link."

/-- `AuthController.forgotPassword` (auth.controller.ts:137-169), abstracted
over the outcome of the `authService.forgotPassword` call so that the caught
unexpected-error branch is expressible: 400 on a missing e-mail, otherwise 200
spreading the cooldown status, and — when the service throws anything — still
200 with `{active: false}` and the same message. -/
def AuthController.forgotPassword (email : String)
    (svc : Except String ForgotStatus) : HttpResponse :=
  if email = "" then
    ⟨400, .jsonError "Email is required"⟩
  else
    match svc with
    | .ok st => ⟨200, .jsonForgot st.active st.activeDate forgotPasswordMessage⟩
    | .error _ => ⟨200, .jsonForgot false none forgotPasswordMessage⟩

/-! ## Concrete fixtures for evaluation -/

/-- An active user row with bcrypt-hashed password "secret1". -/
def exUser : UserRow :=
  ⟨"u1", "Alice", "a@x.io", bcryptHash "secret1", none, "ACTIVE", "r1",
   "Admin", none, none, none⟩

/-- A store with one active user and an empty token ledger, used to evaluate
the authentication gate and login on concrete inputs. -/
def exC2Db : Db := ⟨[exUser], [], 0⟩

/-- A configuration with the defaults of `jwt.config` (15 min access, 1 day
refresh, 2 min cooldown, 2 min reset TTL, all in ms). -/
def exCfg : AuthServiceConfig := ⟨900000, 86400000, 120000, 120000⟩

/-- A signed refresh token of the example user, expiring at instant 1000. -/
def exRefreshTok : Tok := .signed .refresh ⟨"u1", "a@x.io", "r1"⟩ 1000 0

/-- A signed access token of the example user, expiring at instant 1000. -/
def exAccessTok : Tok := .signed .access ⟨"u1", "a@x.io", "r1"⟩ 1000 0

/-- A store for the refresh-rotation scenario: the example user, one active
access-token row and one active refresh-token row. -/
def exC5Db : Db :=
  ⟨[exUser],
   [⟨0, exAccessTok, .access_token, "u1", 1000, false, none⟩,
    ⟨1, exRefreshTok, .refresh_token, "u1", 1000, false, none⟩], 2⟩

/-- The store after a successful refresh at instant 10 on `exC5Db`. -/
def exC5After : Db :=
  match AuthService.refreshAccessToken exCfg exC5Db 10 exRefreshTok with
  | .ok (_, d) => d
  | .error _ => exC5Db

/-- The access token minted by that refresh. -/
def exC5NewTok : Tok :=
  match AuthService.refreshAccessToken exCfg exC5Db 10 exRefreshTok with
  | .ok (t, _) => t
  | .error _ => exAccessTok

/-- A store for the reset-password scenario: the example user and one active
`reset_password` row for the uuid token 42, expiring at instant 50. -/
def exC6Db : Db :=
  ⟨[exUser], [⟨0, .uuid 42, .reset_password, "u1", 50, false, none⟩], 1⟩

/-- The store after a successful password reset at instant 10 on `exC6Db`. -/
def exC6After : Db :=
  match AuthService.resetPassword exC6Db 10 (.uuid 42) "secret2" with
  | .ok d => d
  | .error _ => exC6Db

/-- An expired refresh token (ledger expiry 5). -/
def exC7Tok : Tok := .signed .refresh ⟨"u1", "a@x.io", "r1"⟩ 5 0

/-- A store whose only ledger row is an unrevoked but expired `refresh_token`
row, together with one unrevoked access row of the same user. -/
def exC7Db : Db :=
  ⟨[exUser],
   [⟨0, exC7Tok, .refresh_token, "u1", 5, false, none⟩,
    ⟨1, exAccessTok, .access_token, "u1", 1000, false, none⟩], 2⟩

/-- The store after `logout` with the expired refresh token on `exC7Db`. -/
def exC7After : Db :=
  match AuthService.logout exC7Db exC7Tok with
  | .ok d => d
  | .error _ => exC7Db

/-- A user currently inside the forgot-password cooldown window
(`lastForgotAt = 0`). -/
def exC8User : UserRow :=
  ⟨"u1", "Alice", "a@x.io", bcryptHash "secret1", none, "ACTIVE", "r1",
   "Admin", none, none, some 0⟩

/-- A store for the forgot-password throttling scenario. -/
def exC8Db : Db := ⟨[exC8User], [], 0⟩

/-! ## Supporting lemmas -/

/-- `RoleService.hasPermission` answers exactly the existence of a literal
`(roleId, resource, action)` row. -/
theorem hasPermission_iff (perms : List Permission)
    (roleId resource action : String) :
    RoleService.hasPermission perms roleId resource action = true ↔
      ∃ p ∈ perms, p.roleId = roleId ∧ p.resource = resource ∧ p.action = action := by
  simp [RoleService.hasPermission, List.find?_isSome]

/-- The cache key determines the action once resource and role are fixed. -/
theorem permCacheKey_action_inj {resource a₁ a₂ roleId : String}
    (h : permCacheKey resource a₁ roleId = permCacheKey resource a₂ roleId) :
    a₁ = a₂ := by
  unfold permCacheKey at h
  have hd := congrArg String.data h
  simp only [String.data_append, List.append_assoc] at hd
  have h1 := List.append_cancel_left hd
  simp at h1
  cases a₁; cases a₂; exact congrArg String.mk h1

/-- A freshly inserted cache entry is found again under its key. -/
theorem permCacheGet_head (key : String) (b : Bool) (c : List (String × Bool)) :
    permCacheGet ((key, b) :: c) key = some b := by
  simp [permCacheGet, List.find?]

/-- A singleton cache misses on any other key. -/
theorem permCacheGet_singleton_ne (k k' : String) (b : Bool) (h : ¬k = k') :
    permCacheGet [(k, b)] k' = none := by
  simp [permCacheGet, List.find?, h]

/-- The empty cache misses. -/
theorem permCacheGet_nil (key : String) : permCacheGet [] key = none := by
  simp [permCacheGet]

/-! ## Claim theorems -/

/-- C1: counterexample.  With only a `("client", "manage")` permission row for
role `r1` — so the claim asserts `hasPermission(r1, "client", "delete")` is
true — `RoleService.hasPermission` answers `false`: it matches the literal
action only and implements no "manage" wildcard. -/
theorem hasPermission_manage_only_delete_false :
    RoleService.hasPermission [⟨"r1", "client", "manage"⟩] "r1" "client" "manage" = true ∧
    RoleService.hasPermission [⟨"r1", "client", "manage"⟩] "r1" "client" "delete" = false := by
  decide

/-- C1 (amended): `RoleService.hasPermission(roleId, resource, action)` is
true iff a Permission row exists for exactly `(roleId, resource, action)`;
the manage-wildcard disjunction is implemented one layer up, in
`RequirePermissionMiddleware.require`, whose decision on a fresh request
allows iff a row exists for the literal action or for `"manage"` — so with
only a manage row the middleware allows `"delete"` even though
`hasPermission(roleId, resource, "delete")` itself is false. -/
theorem hasPermission_exact_and_middleware_manage (perms : List Permission)
    (u : AuthenticatedUser) (resource action : String) :
    (RoleService.hasPermission perms u.roleId resource action = true ↔
      ∃ p ∈ perms, p.roleId = u.roleId ∧ p.resource = resource ∧
        p.action = action) ∧
    ((RequirePermissionMiddleware.require perms (some u) [] resource
        action).decision = PermDecision.next ↔
      (∃ p ∈ perms, p.roleId = u.roleId ∧ p.resource = resource ∧
        p.action = action) ∨
      (∃ p ∈ perms, p.roleId = u.roleId ∧ p.resource = resource ∧
        p.action = "manage")) := by
  refine ⟨hasPermission_iff .., ?_⟩
  rw [← hasPermission_iff, ← hasPermission_iff]
  unfold RequirePermissionMiddleware.require
  simp only [permCacheGet_nil]
  cases hm : RoleService.hasPermission perms u.roleId resource "manage" <;>
    cases hs : RoleService.hasPermission perms u.roleId resource action <;>
      simp [hm, hs]

/-- C9: within one request, a second permission check for the same
(resource, action, roleId) triple is answered from the request cache — no
Resolver call — with the same allow/deny decision as the first, while a check
for a different action on a fresh request's cache misses and queries the
Resolver again (at least once). -/
theorem require_request_scoped_cache (perms : List Permission)
    (u : AuthenticatedUser) (cache : List (String × Bool))
    (resource action action' : String) (hne : action' ≠ action) :
    ((RequirePermissionMiddleware.require perms (some u)
        (RequirePermissionMiddleware.require perms (some u) cache resource
          action).cache resource action).resolverCalls = 0 ∧
     (RequirePermissionMiddleware.require perms (some u)
        (RequirePermissionMiddleware.require perms (some u) cache resource
          action).cache resource action).decision =
      (RequirePermissionMiddleware.require perms (some u) cache resource
        action).decision) ∧
    1 ≤ (RequirePermissionMiddleware.require perms (some u)
        (RequirePermissionMiddleware.require perms (some u) [] resource
          action).cache resource action').resolverCalls := by
  constructor
  · unfold RequirePermissionMiddleware.require
    cases h : permCacheGet cache (permCacheKey resource action u.roleId) with
    | some b => cases b <;> simp [h]
    | none =>
      cases hm : RoleService.hasPermission perms u.roleId resource "manage" <;>
        cases hs : RoleService.hasPermission perms u.roleId resource action <;>
          simp [h, hm, hs, permCacheGet_head]
  · have hkey : ¬permCacheKey resource action u.roleId =
        permCacheKey resource action' u.roleId := by
      intro hk
      exact hne (permCacheKey_action_inj hk).symm
    unfold RequirePermissionMiddleware.require
    simp only [permCacheGet_nil]
    cases hm : RoleService.hasPermission perms u.roleId resource "manage" <;>
      cases hs : RoleService.hasPermission perms u.roleId resource action <;>
        simp [hm, hs, permCacheGet_singleton_ne _ _ _ hkey] <;>
          split <;> simp

/-- C2: evaluation of the gate at the failing inputs.  A structurally invalid
token and a well-signed but unledgered token both answer 401, but the bodies
differ — `AuthMiddleware.authenticate` copies `error.message` into the
response, so the caller can tell which sub-check failed, contrary to the
claimed indistinguishability. -/
theorem authenticate_distinct_failure_bodies :
    AuthMiddleware.authenticate exC2Db 10 (some (.raw "not-a-jwt")) =
      .failure ⟨401, .jsonError "Invalid or expired access token"⟩ ∧
    AuthMiddleware.authenticate exC2Db 10
        (some (.signed .access ⟨"u1", "a@x.io", "r1"⟩ 100 0)) =
      .failure ⟨401, .jsonError "Invalid or revoked access token"⟩ ∧
    HttpBody.jsonError "Invalid or expired access token" ≠
      HttpBody.jsonError "Invalid or revoked access token" := by
  refine ⟨by decide, by decide, by decide⟩

/-- C4: `validateAccessToken` fails with exactly one of three errors, checked
in this order — codec failure, then no active `access_token` ledger row, then
no active user with the claims' id — and otherwise returns the
{id, email, roleId, roleName} projection of such a user. -/
theorem validateAccessToken_error_taxonomy (db : Db) (now : Nat) (tok : Tok) :
    (TokenService.verifyToken now tok false = none ∧
      AuthService.validateAccessToken db now tok =
        .error "Invalid or expired access token") ∨
    (∃ c, TokenService.verifyToken now tok false = some c ∧
      (∀ r ∈ db.tokens, ¬(r.token = tok ∧ r.type = TokenType.access_token ∧
          r.isRevoked = false ∧ now < r.expiresAt)) ∧
      AuthService.validateAccessToken db now tok =
        .error "Invalid or revoked access token") ∨
    (∃ c r, TokenService.verifyToken now tok false = some c ∧
      r ∈ db.tokens ∧ r.token = tok ∧ r.type = TokenType.access_token ∧
      r.isRevoked = false ∧ now < r.expiresAt ∧
      (∀ u ∈ db.users,
        ¬(u.id = c.id ∧ u.status = "ACTIVE" ∧ u.deletedAt = none)) ∧
      AuthService.validateAccessToken db now tok =
        .error "User not found or inactive") ∨
    (∃ c u r, TokenService.verifyToken now tok false = some c ∧
      r ∈ db.tokens ∧ r.token = tok ∧ r.type = TokenType.access_token ∧
      r.isRevoked = false ∧ now < r.expiresAt ∧
      u ∈ db.users ∧ u.id = c.id ∧ u.status = "ACTIVE" ∧ u.deletedAt = none ∧
      AuthService.validateAccessToken db now tok =
        .ok ⟨u.id, u.email, u.roleId, u.roleName⟩) := by
  cases hv : TokenService.verifyToken now tok false with
  | none => exact Or.inl ⟨rfl, by simp [AuthService.validateAccessToken, hv]⟩
  | some c =>
    cases hr : db.tokens.find? (isActiveAccessRow now tok) with
    | none =>
      refine Or.inr (Or.inl ⟨c, rfl, ?_,
        by simp [AuthService.validateAccessToken, hv, hr]⟩)
      intro r hrmem
      have hfalse := List.find?_eq_none.mp hr r hrmem
      simpa [isActiveAccessRow] using hfalse
    | some r0 =>
      have hmem := List.mem_of_find?_eq_some hr
      have hprops := of_decide_eq_true
        (by simpa [isActiveAccessRow] using List.find?_some hr)
      cases hu : findActiveUserById db c.id with
      | none =>
        refine Or.inr (Or.inr (Or.inl ⟨c, r0, rfl, hmem, hprops.1,
          hprops.2.1, hprops.2.2.1, hprops.2.2.2, ?_,
          by simp [AuthService.validateAccessToken, hv, hr, hu]⟩))
        intro u humem
        unfold findActiveUserById at hu
        have hfalse := List.find?_eq_none.mp hu u humem
        simpa using hfalse
      | some u0 =>
        have hu' := hu
        unfold findActiveUserById at hu'
        have humem := List.mem_of_find?_eq_some hu'
        have huprops := of_decide_eq_true (by simpa using List.find?_some hu')
        exact Or.inr (Or.inr (Or.inr ⟨c, u0, r0, rfl, hmem, hprops.1,
          hprops.2.1, hprops.2.2.1, hprops.2.2.2, humem, huprops.1,
          huprops.2.1, huprops.2.2,
          by simp [AuthService.validateAccessToken, hv, hr, hu]⟩))

/-- C9 witness: a role with only `("product", "read")`; the repeated
`("product", "read")` check hits the cache, and the `("product", "delete")`
check on the same request misses it. -/
theorem require_request_scoped_cache_witness :
    (RequirePermissionMiddleware.require [⟨"r1", "product", "read"⟩]
        (some ⟨"u1", "e", "r1", "Admin"⟩)
        (RequirePermissionMiddleware.require [⟨"r1", "product", "read"⟩]
          (some ⟨"u1", "e", "r1", "Admin"⟩) [] "product" "read").cache
        "product" "read").resolverCalls = 0 ∧
    1 ≤ (RequirePermissionMiddleware.require [⟨"r1", "product", "read"⟩]
        (some ⟨"u1", "e", "r1", "Admin"⟩)
        (RequirePermissionMiddleware.require [⟨"r1", "product", "read"⟩]
          (some ⟨"u1", "e", "r1", "Admin"⟩) [] "product" "read").cache
        "product" "delete").resolverCalls :=
  ⟨(require_request_scoped_cache [⟨"r1", "product", "read"⟩]
      ⟨"u1", "e", "r1", "Admin"⟩ [] "product" "read" "delete"
      (by decide)).1.1,
   (require_request_scoped_cache [⟨"r1", "product", "read"⟩]
      ⟨"u1", "e", "r1", "Admin"⟩ [] "product" "read" "delete"
      (by decide)).2⟩

/-- Inversion of refresh-class codec verification: success forces a signed
refresh token carrying exactly the returned claims, not yet expired. -/
theorem verifyToken_refresh_inv (now : Nat) (tok : Tok) (c : Claims)
    (h : TokenService.verifyToken now tok true = some c) :
    ∃ exp iat, tok = .signed .refresh c exp iat ∧ now < exp := by
  cases tok with
  | signed kind cl exp iat =>
    simp only [TokenService.verifyToken, if_true] at h
    by_cases hcond : kind = JwtKind.refresh ∧ now < exp
    · rw [if_pos hcond] at h
      obtain ⟨hk, hlt⟩ := hcond
      obtain rfl : cl = c := Option.some.inj h
      exact ⟨exp, iat, by rw [hk], hlt⟩
    · rw [if_neg hcond] at h
      cases h
  | uuid n => simp [TokenService.verifyToken] at h
  | raw s => simp [TokenService.verifyToken] at h

/-- C3: login answers the one generic `Invalid email or password` message,
with status 401, both for an e-mail with no active, non-deleted user and for
an existing active user presented with a wrong password — the two responses
are indistinguishable. -/
theorem login_uniform_invalid_credentials (cfg : AuthServiceConfig) (db : Db)
    (now now₂ : Nat) (email password email₂ password₂ : String)
    (he : email ≠ "") (hp : password ≠ "")
    (he₂ : email₂ ≠ "") (hp₂ : password₂ ≠ "")
    (hunknown : findActiveUserByEmail db email = none)
    (u : UserRow) (hfound : findActiveUserByEmail db email₂ = some u)
    (hwrong : PasswordService.verify password₂ u.password = false) :
    AuthController.login cfg db now email password =
      ⟨401, .jsonError "Invalid email or password"⟩ ∧
    AuthController.login cfg db now₂ email₂ password₂ =
      ⟨401, .jsonError "Invalid email or password"⟩ := by
  constructor
  · simp [AuthController.login, AuthService.login, hunknown, he, hp]
  · simp [AuthController.login, AuthService.login, hfound, hwrong, he₂, hp₂]

/-- C3 witness: against the one-user store, the unknown e-mail
`nobody@x.io` and a wrong password for the known `a@x.io` produce the same
concrete 401 response. -/
theorem login_uniform_invalid_credentials_witness :
    AuthController.login exCfg exC2Db 10 "nobody@x.io" "whatever" =
      ⟨401, .jsonError "Invalid email or password"⟩ ∧
    AuthController.login exCfg exC2Db 10 "a@x.io" "wrongpw" =
      ⟨401, .jsonError "Invalid email or password"⟩ :=
  login_uniform_invalid_credentials exCfg exC2Db 10 10 "nobody@x.io" "whatever"
    "a@x.io" "wrongpw" (by decide) (by decide) (by decide) (by decide)
    (by decide) exUser (by decide) (by decide)

/-- C5: after a successful `refreshAccessToken`, every previously unrevoked
access-token row of the refresh token's user is revoked (same row id and
token value), a fresh active access-token row for the returned token exists,
and every refresh-token row — in particular the presented one, which stays
valid — is carried over unchanged. -/
theorem refreshAccessToken_rotation (cfg : AuthServiceConfig) (db : Db)
    (now : Nat) (tok newTok : Tok) (db' : Db)
    (hcfg : 0 < cfg.accessTokenExpiresIn)
    (h : AuthService.refreshAccessToken cfg db now tok = .ok (newTok, db')) :
    ∃ c, (∃ exp iat, tok = .signed .refresh c exp iat) ∧
      (∀ r ∈ db.tokens, r.userId = c.id → r.type = TokenType.access_token →
        r.isRevoked = false →
        ∃ r' ∈ db'.tokens, r'.rowId = r.rowId ∧ r'.token = r.token ∧
          r'.isRevoked = true) ∧
      (∃ rn ∈ db'.tokens, rn.token = newTok ∧
        rn.type = TokenType.access_token ∧ rn.userId = c.id ∧
        rn.isRevoked = false ∧ rn.usedAt = none ∧ now < rn.expiresAt) ∧
      (∀ r ∈ db.tokens, r.type = TokenType.refresh_token → r ∈ db'.tokens) ∧
      (∃ rr ∈ db'.tokens, rr.token = tok ∧ rr.type = TokenType.refresh_token ∧
        rr.isRevoked = false ∧ now < rr.expiresAt) := by
  cases hv : TokenService.verifyToken now tok true with
  | none => simp [AuthService.refreshAccessToken, hv] at h
  | some c =>
    cases hr : db.tokens.find? (isActiveRefreshRowFor now tok c.id) with
    | none => simp [AuthService.refreshAccessToken, hv, hr] at h
    | some r1 =>
      have hr1mem := List.mem_of_find?_eq_some hr
      have hr1props := of_decide_eq_true
        (by simpa [isActiveRefreshRowFor] using List.find?_some hr)
      obtain ⟨htokval, huid1, htyp1, hrev1, hexp1⟩ := hr1props
      simp only [AuthService.refreshAccessToken, hv, hr, Db.createToken,
        Except.ok.injEq, Prod.mk.injEq] at h
      obtain ⟨hnew, hdb⟩ := h
      subst hdb
      subst hnew
      refine ⟨c, verifyToken_refresh_inv now tok c hv |>.imp
        (fun exp hex => hex.imp fun iat hx => hx.1), ?_, ?_, ?_, ?_⟩
      · intro r hrmem huid htyp hrev
        refine ⟨{ r with isRevoked := true }, ?_, rfl, rfl, rfl⟩
        apply List.mem_append_left
        have : (if r.userId = c.id ∧ r.type = TokenType.access_token ∧
            r.isRevoked = false then { r with isRevoked := true } else r) =
            { r with isRevoked := true } := if_pos ⟨huid, htyp, hrev⟩
        exact this ▸ List.mem_map_of_mem _ hrmem
      · refine ⟨⟨db.nextRowId, TokenService.generateAccessToken
          cfg.accessTokenExpiresIn now c, TokenType.access_token, c.id,
          now + cfg.accessTokenExpiresIn, false, none⟩, ?_, rfl, rfl, rfl,
          rfl, rfl, Nat.lt_add_of_pos_right hcfg⟩
        exact List.mem_append_right _ (List.mem_singleton.mpr rfl)
      · intro r hrmem htyp
        apply List.mem_append_left
        refine List.mem_map.mpr ⟨r, hrmem, if_neg ?_⟩
        rintro ⟨-, htyp2, -⟩
        rw [htyp] at htyp2
        cases htyp2
      · refine ⟨r1, ?_, htokval, htyp1, hrev1, hexp1⟩
        apply List.mem_append_left
        refine List.mem_map.mpr ⟨r1, hr1mem, if_neg ?_⟩
        rintro ⟨-, htyp2, -⟩
        rw [htyp1] at htyp2
        cases htyp2

/-- C5 witness: on the two-row store, refreshing at instant 10 leaves the
refresh-token row present, unrevoked and unexpired. -/
theorem refreshAccessToken_rotation_witness :
    ∃ rr ∈ exC5After.tokens, rr.token = exRefreshTok ∧
      rr.type = TokenType.refresh_token ∧ rr.isRevoked = false ∧
      10 < rr.expiresAt := by
  obtain ⟨c, -, -, -, -, hrr⟩ := refreshAccessToken_rotation exCfg exC5Db 10
    exRefreshTok exC5NewTok exC5After (by decide) (by rfl)
  exact hrr

/-- C6: `resetPassword` fails with the invalid-or-expired-reset-token error
when no unrevoked, unused, unexpired `reset_password` row matches; on success
(for a ledger in which the token string appears under a single primary key,
as uuid tokens do) it replaces the user's password hash, marks every row of
that token used and revoked, revokes all access- and refresh-token rows of
the user, and any second consumption of the same token fails. -/
theorem resetPassword_single_use (db : Db) (now : Nat) (tok : Tok)
    (pw : String) (db' : Db)
    (huniq : ∀ r₁ ∈ db.tokens, ∀ r₂ ∈ db.tokens,
      r₁.token = tok → r₂.token = tok → r₁.rowId = r₂.rowId) :
    ((∀ r ∈ db.tokens, ¬(r.token = tok ∧ r.type = TokenType.reset_password ∧
        r.isRevoked = false ∧ r.usedAt = none ∧ now < r.expiresAt)) →
      AuthService.resetPassword db now tok pw =
        .error "Invalid or expired reset token") ∧
    (AuthService.resetPassword db now tok pw = .ok db' →
      ∃ tr ∈ db.tokens, tr.token = tok ∧
        tr.type = TokenType.reset_password ∧ tr.isRevoked = false ∧
        tr.usedAt = none ∧ now < tr.expiresAt ∧
        (∀ u ∈ db'.users, u.id = tr.userId → u.password = bcryptHash pw) ∧
        (∀ r' ∈ db'.tokens, r'.token = tok →
          r'.usedAt = some now ∧ r'.isRevoked = true) ∧
        (∀ r' ∈ db'.tokens, r'.userId = tr.userId →
          r'.type = TokenType.refresh_token ∨ r'.type = TokenType.access_token →
          r'.isRevoked = true) ∧
        (∀ now₂ pw₂, AuthService.resetPassword db' now₂ tok pw₂ =
          .error "Invalid or expired reset token")) := by
  constructor
  · intro hnone
    have hfind : db.tokens.find? (isActiveResetRow now tok) = none := by
      rw [List.find?_eq_none]
      intro r hrmem
      simpa [isActiveResetRow] using hnone r hrmem
    simp [AuthService.resetPassword, hfind]
  · intro h
    cases hfr : db.tokens.find? (isActiveResetRow now tok) with
    | none => simp [AuthService.resetPassword, hfr] at h
    | some tr =>
      have htrmem := List.mem_of_find?_eq_some hfr
      have htrprops := of_decide_eq_true
        (by simpa [isActiveResetRow] using List.find?_some hfr)
      obtain ⟨htok, htyp, hrev, hused, hexp⟩ := htrprops
      cases hh : PasswordService.hash pw with
      | error e => simp [AuthService.resetPassword, hfr, hh] at h
      | ok hashed =>
        have hhash : hashed = bcryptHash pw := by
          unfold PasswordService.hash at hh
          split at hh
          · cases hh
          · split at hh
            · cases hh
            · exact (Except.ok.inj hh).symm
        subst hhash
        simp only [AuthService.resetPassword, hfr, hh, Db.updateUser,
          Except.ok.injEq] at h
        have htokens : db'.tokens =
            (db.tokens.map fun r => if r.rowId = tr.rowId then
                { r with usedAt := some now, isRevoked := true } else r).map
              (fun r => if r.userId = tr.userId ∧
                  (r.type = TokenType.refresh_token ∨
                   r.type = TokenType.access_token)
                then { r with isRevoked := true } else r) := by
          rw [← h]
        have husers : db'.users = db.users.map fun x =>
            if x.id = tr.userId then { x with password := bcryptHash pw }
            else x := by
          rw [← h]
        have husersfact : ∀ u ∈ db'.users, u.id = tr.userId →
            u.password = bcryptHash pw := by
          rw [husers]
          intro u humem huid
          obtain ⟨x, hxmem, hxeq⟩ := List.mem_map.mp humem
          by_cases hxid : x.id = tr.userId
          · rw [if_pos hxid] at hxeq
            subst hxeq
            rfl
          · rw [if_neg hxid] at hxeq
            subst hxeq
            exact absurd huid hxid
        have hcfact : ∀ r' ∈ db'.tokens, r'.token = tok →
            r'.usedAt = some now ∧ r'.isRevoked = true := by
          rw [htokens]
          intro r' hmem htokr'
          obtain ⟨y, hymem, hyeq⟩ := List.mem_map.mp hmem
          obtain ⟨r, hrmem, hreq⟩ := List.mem_map.mp hymem
          subst hreq
          subst hyeq
          by_cases h2 : r.rowId = tr.rowId
          · rw [if_pos h2]
            constructor <;> split <;> rfl
          · rw [if_neg h2] at htokr'
            have hrt : r.token = tok := by
              by_cases hc : r.userId = tr.userId ∧
                  (r.type = TokenType.refresh_token ∨
                   r.type = TokenType.access_token)
              · rw [if_pos hc] at htokr'
                exact htokr'
              · rw [if_neg hc] at htokr'
                exact htokr'
            exact absurd (huniq r hrmem tr htrmem hrt htok) h2
        have hdfact : ∀ r' ∈ db'.tokens, r'.userId = tr.userId →
            r'.type = TokenType.refresh_token ∨
              r'.type = TokenType.access_token →
            r'.isRevoked = true := by
          rw [htokens]
          intro r' hmem huidr' htypr'
          obtain ⟨y, hymem, hyeq⟩ := List.mem_map.mp hmem
          subst hyeq
          by_cases hcond : y.userId = tr.userId ∧
              (y.type = TokenType.refresh_token ∨
               y.type = TokenType.access_token)
          · rw [if_pos hcond]
          · rw [if_neg hcond] at huidr' htypr'
            exact absurd ⟨huidr', htypr'⟩ hcond
        have hefact : ∀ now₂ pw₂, AuthService.resetPassword db' now₂ tok pw₂ =
            .error "Invalid or expired reset token" := by
          intro now₂ pw₂
          have hfind : db'.tokens.find? (isActiveResetRow now₂ tok) = none := by
            rw [List.find?_eq_none]
            intro r' hmem hb
            have hp := of_decide_eq_true
              (by simpa [isActiveResetRow] using hb)
            obtain ⟨hrt, -, -, hrused, -⟩ := hp
            have hconsumed := hcfact r' hmem hrt
            rw [hconsumed.1] at hrused
            cases hrused
          simp [AuthService.resetPassword, hfind]
        exact ⟨tr, htrmem, htok, htyp, hrev, hused, hexp, husersfact,
          hcfact, hdfact, hefact⟩

/-- C6 witness: after consuming the concrete reset token once, a second
consumption fails with the invalid-or-expired-reset-token error. -/
theorem resetPassword_single_use_witness :
    AuthService.resetPassword exC6After 10 (.uuid 42) "secret3" =
      .error "Invalid or expired reset token" := by
  obtain ⟨tr, -, -, -, -, -, -, -, -, -, hefact⟩ :=
    (resetPassword_single_use exC6Db 10 (.uuid 42) "secret2" exC6After
      (by decide)).2 (by rfl)
  exact hefact 10 "secret3"

/-- C7: counterexample.  At instant 10 the only `refresh_token` row for the
token is expired (ledger expiry 5), so no row is active in the claimed sense,
yet `logout` succeeds: the source query filters only on `isRevoked`, not on
expiry or `usedAt`. -/
theorem logout_counterexample :
    (AuthService.logout exC7Db exC7Tok).isOk = true ∧
    (∀ r ∈ exC7Db.tokens, ¬(r.token = exC7Tok ∧
      r.type = TokenType.refresh_token ∧ r.isRevoked = false ∧
      r.usedAt = none ∧ 10 < r.expiresAt)) := by
  constructor
  · rfl
  · decide

/-- C7 (amended): `logout` fails with `Invalid refresh token` unless the
ledger holds an unrevoked `refresh_token` row for the presented token —
expiry and `usedAt` are not checked — and on success every token row of that
row's user, of every type, is revoked. -/
theorem logout_requires_unrevoked_row (db : Db) (tok : Tok) (db' : Db) :
    ((∀ r ∈ db.tokens, ¬(r.token = tok ∧ r.type = TokenType.refresh_token ∧
        r.isRevoked = false)) →
      AuthService.logout db tok = .error "Invalid refresh token") ∧
    (AuthService.logout db tok = .ok db' →
      ∃ tr ∈ db.tokens, tr.token = tok ∧ tr.type = TokenType.refresh_token ∧
        tr.isRevoked = false ∧
        ∀ r' ∈ db'.tokens, r'.userId = tr.userId → r'.isRevoked = true) := by
  constructor
  · intro hnone
    have hfind : db.tokens.find? (isUnrevokedRefreshRow tok) = none := by
      rw [List.find?_eq_none]
      intro r hrmem
      simpa [isUnrevokedRefreshRow] using hnone r hrmem
    simp [AuthService.logout, hfind]
  · intro h
    cases hfr : db.tokens.find? (isUnrevokedRefreshRow tok) with
    | none => simp [AuthService.logout, hfr] at h
    | some tr =>
      have htrmem := List.mem_of_find?_eq_some hfr
      have htrprops := of_decide_eq_true
        (by simpa [isUnrevokedRefreshRow] using List.find?_some hfr)
      obtain ⟨htok, htyp, hrev⟩ := htrprops
      simp only [AuthService.logout, hfr, Except.ok.injEq] at h
      have htokens : db'.tokens = db.tokens.map fun r =>
          if r.userId = tr.userId ∧ r.isRevoked = false
          then { r with isRevoked := true } else r := by
        rw [← h]
      refine ⟨tr, htrmem, htok, htyp, hrev, ?_⟩
      rw [htokens]
      intro r' hmem huid
      obtain ⟨y, hymem, hyeq⟩ := List.mem_map.mp hmem
      subst hyeq
      by_cases hcond : y.userId = tr.userId ∧ y.isRevoked = false
      · rw [if_pos hcond]
      · rw [if_neg hcond] at huid ⊢
        cases hy : y.isRevoked
        · exact absurd ⟨huid, hy⟩ hcond
        · rfl

/-- C7 witness: the logout on the expired-but-unrevoked refresh row
succeeds, and afterwards every token of that user is revoked. -/
theorem logout_requires_unrevoked_row_witness :
    ∃ tr ∈ exC7Db.tokens, tr.token = exC7Tok ∧
      tr.type = TokenType.refresh_token ∧ tr.isRevoked = false ∧
      ∀ r' ∈ exC7After.tokens, r'.userId = tr.userId → r'.isRevoked = true :=
  (logout_requires_unrevoked_row exC7Db exC7Tok exC7After).2 (by rfl)

/-- C8: `forgotPassword` with an unknown or inactive e-mail answers
`{active: false}` and leaves the store unchanged; inside the cooldown window
it answers `{active: true, activeDate: lastForgotAt + cooldown}` and leaves
the store unchanged; otherwise it appends exactly one `reset_password` row
expiring at `now + resetTokenExpiresIn`, stamps the user's `lastForgotAt` to
`now`, and answers `{active: false}`. -/
theorem forgotPassword_cooldown_behavior (cfg : AuthServiceConfig) (db : Db)
    (now : Nat) (email : String) (freshUuid : Nat) :
    (findActiveUserByEmail db email = none →
      AuthService.forgotPassword cfg db now email freshUuid =
        (⟨false, none⟩, db)) ∧
    (∀ u t, findActiveUserByEmail db email = some u →
      u.lastForgotAt = some t → now < t + cfg.forgotPasswordCooldown →
      AuthService.forgotPassword cfg db now email freshUuid =
        (⟨true, some (t + cfg.forgotPasswordCooldown)⟩, db)) ∧
    (∀ u, findActiveUserByEmail db email = some u →
      (u.lastForgotAt = none ∨
        ∃ t, u.lastForgotAt = some t ∧ t + cfg.forgotPasswordCooldown ≤ now) →
      (AuthService.forgotPassword cfg db now email freshUuid).1 =
        ⟨false, none⟩ ∧
      (AuthService.forgotPassword cfg db now email freshUuid).2.tokens =
        db.tokens ++ [⟨db.nextRowId, .uuid freshUuid, .reset_password, u.id,
          now + cfg.resetTokenExpiresIn, false, none⟩] ∧
      (∀ x ∈ (AuthService.forgotPassword cfg db now email freshUuid).2.users,
        x.id = u.id → x.lastForgotAt = some now)) := by
  refine ⟨?_, ?_, ?_⟩
  · intro hnone
    simp [AuthService.forgotPassword, hnone]
  · intro u t hu hlast hcool
    simp [AuthService.forgotPassword, hu, hlast, hcool]
  · intro u hu hcase
    have hissue : AuthService.forgotPassword cfg db now email freshUuid =
        AuthService.forgotIssue cfg db now u freshUuid := by
      rcases hcase with hnone | ⟨t, hlast, hle⟩
      · simp [AuthService.forgotPassword, hu, hnone]
      · simp [AuthService.forgotPassword, hu, hlast, Nat.not_lt.mpr hle]
    rw [hissue]
    refine ⟨rfl, ?_, ?_⟩
    · simp [AuthService.forgotIssue, Db.createToken, Db.updateUser]
    · intro x hxmem hxid
      simp only [AuthService.forgotIssue, Db.createToken,
        Db.updateUser] at hxmem
      obtain ⟨y, hymem, hyeq⟩ := List.mem_map.mp hxmem
      by_cases hyid : y.id = u.id
      · rw [if_pos hyid] at hyeq
        subst hyeq
        rfl
      · rw [if_neg hyid] at hyeq
        subst hyeq
        exact absurd hxid hyid

/-- C8 witness: with `lastForgotAt = 0`, cooldown 120000 ms and `now =
60000`, the call is throttled and answers `{active: true, activeDate:
120000}` without touching the store. -/
theorem forgotPassword_cooldown_behavior_witness :
    AuthService.forgotPassword exCfg exC8Db 60000 "a@x.io" 7 =
      (⟨true, some 120000⟩, exC8Db) := by
  have h := (forgotPassword_cooldown_behavior exCfg exC8Db 60000 "a@x.io"
    7).2.1 exC8User 0 (by decide) rfl (by decide)
  simpa [exCfg] using h

/-- C10: for any request carrying a non-empty e-mail string, the
forgot-password endpoint answers status 200 — even when the underlying
service call throws, in which case the body is `{active: false}` with the
same uniform message; no failure surfaces as a 500. -/
theorem forgotPassword_endpoint_always_200 (email : String) (he : email ≠ "")
    (svc : Except String ForgotStatus) :
    (AuthController.forgotPassword email svc).status = 200 ∧
    (∀ e, svc = .error e → AuthController.forgotPassword email svc =
      ⟨200, .jsonForgot false none forgotPasswordMessage⟩) := by
  constructor
  · unfold AuthController.forgotPassword
    rw [if_neg he]
    cases svc <;> rfl
  · intro e hsvc
    subst hsvc
    unfold AuthController.forgotPassword
    rw [if_neg he]

/-- C10 witness: a throwing service call (for example a database failure)
still produces the concrete 200 response with `{active: false}`. -/
theorem forgotPassword_endpoint_always_200_witness :
    AuthController.forgotPassword "a@x.io" (.error "db down") =
      ⟨200, .jsonForgot false none forgotPasswordMessage⟩ :=
  (forgotPassword_endpoint_always_200 "a@x.io" (by decide)
    (.error "db down")).2 "db down" rfl
